import Mathlib

/-!
Shallow embedding of `src/collector.py` (Mr-Infect/collector), an asynchronous
web scraper: it syntax-validates URLs, probes each one for liveness, fetches
the surviving pages through a retrying client, extracts (title, paragraph)
records from the HTML, and flattens the per-URL results into one dataset.

Network responses and the HTML parser are external effects; they are modelled
as explicit inputs (a `UrlEnv` per URL).  Every definition below mirrors a
function of the source file, with line references in the doc comments.
-/

namespace Collector

/-- Strings are modelled as lists of characters. -/
abbrev Str := List Char

/-- Python `str.lower()` restricted to the ASCII case mapping. -/
def lowerStr (s : Str) : Str := s.map Char.toLower

/-! ### URL syntax validator — `is_valid_url`, src/collector.py lines 21–26 -/

/-- Case-insensitive literal matcher (the effect of `re.IGNORECASE` on the
literal part of the pattern): consumes `lit` from the front of `s`, returning
the remaining input on success. -/
def matchLit : Str → Str → Option Str
  | [], s => some s
  | _ :: _, [] => none
  | c :: lit, d :: s => if d.toLower = c.toLower then matchLit lit s else none

/-- Python `$` without `re.MULTILINE`: matches at the end of the input or just
before a single trailing newline. -/
def dollarAt (r : Str) : Bool := r.isEmpty || r == ['\n']

/-- Matcher for the regex tail `[^ ]+$`: one or more characters other than the
space character, followed by `$`, with backtracking over how many characters
the `+` consumes. -/
def plusNonSpaceDollar : Str → Bool
  | [] => false
  | c :: rest => (c != ' ') && (dollarAt rest || plusNonSpaceDollar rest)

/-- `is_valid_url` (lines 21–26): `re.match` of `^(?:http|https)://[^ ]+$`
compiled with `re.IGNORECASE`.  Backtracking resolves the alternation: the
input must begin, case-insensitively, with `http://` or with `https://`, and
the remainder must match `[^ ]+$`. -/
def is_valid_url (url : Str) : Bool :=
  (match matchLit "http://".toList url with
   | some rest => plusNonSpaceDollar rest
   | none => false) ||
  (match matchLit "https://".toList url with
   | some rest => plusNonSpaceDollar rest
   | none => false)

/-! ### Liveness prober — `is_url_alive_and_valid`, lines 29–45 -/

/-- The transport-level outcome of the probe GET: an exception anywhere inside
the `try` block (connection error, timeout, decoding failure), or a response
carrying an HTTP status code and a body text. -/
inductive ProbeResponse where
  | failure
  | success (status : Nat) (body : Str)

/-- The spec's `LivenessResult` classification. -/
inductive LivenessResult where
  | Alive
  | DeadStatus (code : Nat)
  | SoftNotFound
  | NetworkError
deriving DecidableEq

/-- The literal probed for by the soft-404 heuristic (line 37). -/
def softNotFoundPhrase : Str := "page not found".toList

/-- Python's `needle in hay` substring test on strings. -/
def containsSub (needle : Str) : Str → Bool
  | [] => needle.isEmpty
  | c :: rest => needle.isPrefixOf (c :: rest) || containsSub needle rest

/-- `is_url_alive_and_valid` (lines 29–45).  The Python function returns a
boolean (`True` exactly on the `Alive` branch); its branches correspond
one-to-one to the spec's `LivenessResult` values: exception → `NetworkError`
(line 43), status ≠ 200 → `DeadStatus` (line 41), status 200 with the phrase
`"page not found"` in the lower-cased body → `SoftNotFound` (lines 36–39),
otherwise `Alive` (line 40). -/
def is_url_alive_and_valid (resp : ProbeResponse) : LivenessResult :=
  match resp with
  | .failure => .NetworkError
  | .success status body =>
      if status = 200 then
        if containsSub softNotFoundPhrase (lowerStr body) then .SoftNotFound
        else .Alive
      else .DeadStatus status

/-- The boolean actually returned by the Python function: `True` exactly when
the classification is `Alive`. -/
def probeOk : LivenessResult → Bool
  | .Alive => true
  | _ => false

/-! ### Retrying fetcher — `fetch_url`, lines 47–74, with
`RetryClient(raise_for_status=False, retry_options=ExponentialRetry(attempts=3))`
from lines 122–123 -/

/-- The outcome of one fetch attempt: a 2xx/3xx response whose body was read
(`raise_for_status` passes, line 66), a response with a status outside
2xx/3xx, a timeout, or a transport error. -/
inductive AttemptResult where
  | ok (body : Str)
  | httpError (status : Nat)
  | timeout
  | transportError

/-- An attempt yields a body exactly when it is an `ok` attempt. -/
def attemptBody : AttemptResult → Option Str
  | .ok b => some b
  | _ => none

/-- `ExponentialRetry(attempts=3)`, line 122. -/
def maxAttempts : Nat := 3

/-- Modelled from the spec: the exponential-backoff delay slept after failed
attempt `k` (0-based) before attempt `k + 1`, in units of the base delay of
the external `ExponentialRetry` policy; each delay doubles the previous one.
The retry layer itself is the external `aiohttp_retry` library, not part of
src/. -/
def backoffDelay (k : Nat) : Nat := 2 ^ k

/-- The result of running the retry policy for one URL: the body of the first
successful attempt (or `none` when every attempt failed), the number of
attempts made, and the backoff delays slept between successive attempts. -/
structure FetchOutcome where
  body : Option Str
  attemptsUsed : Nat
  backoffs : List Nat
deriving DecidableEq

/-- Modelled from the spec: the retry loop of the external `RetryClient`.
`results k` is the outcome of attempt `k`; the loop runs attempts in order,
stops at the first success, sleeps `backoffDelay k` after a failed attempt
`k` when further attempts remain, and gives up after the configured number of
attempts. -/
def retryLoop (results : Nat → AttemptResult) : Nat → Nat → FetchOutcome
  | 0, used => ⟨none, used, []⟩
  | 1, used =>
      match attemptBody (results used) with
      | some b => ⟨some b, used + 1, []⟩
      | none => ⟨none, used + 1, []⟩
  | n + 2, used =>
      match attemptBody (results used) with
      | some b => ⟨some b, used + 1, []⟩
      | none =>
          let r := retryLoop results (n + 1) (used + 1)
          ⟨r.body, r.attemptsUsed, backoffDelay used :: r.backoffs⟩

/-- `fetch_url` (lines 47–74) as driven by the session built at lines 122–123:
run the retry policy with `maxAttempts = 3`; when every attempt fails the
exception handlers at lines 68–73 turn the final error into `None`. -/
def fetch_url (results : Nat → AttemptResult) : FetchOutcome :=
  retryLoop results maxAttempts 0

/-! ### Content extractor — `scrape_data`, lines 76–104 -/

/-- The characters removed by Python's `str.strip()` (ASCII range). -/
def pyWhitespace : Str := [' ', '\t', '\n', '\r', '\x0b', '\x0c']

/-- Membership in `pyWhitespace`. -/
def pyIsSpace (c : Char) : Bool := pyWhitespace.contains c

/-- Python `str.strip()`: drop leading and trailing whitespace. -/
def pyStrip (s : Str) : Str :=
  ((s.dropWhile pyIsSpace).reverse.dropWhile pyIsSpace).reverse

/-- The outcome of the BeautifulSoup queries inside the `try` block (lines
83–85): either an exception (caught at line 102), or the raw texts of the
`h1, h2, h3` elements and of the `p` elements, in document order, before
stripping.  Building the soup itself (line 82) is treated as total: the
recovering lxml parser accepts any non-empty text input. -/
inductive ParseOutcome where
  | raised
  | ok (titles paragraphs : List Str)

/-- One row of the output: the dict built at lines 94–98. -/
structure ExtractedRecord where
  url : Str
  title : Str
  paragraph : Str
deriving DecidableEq

/-- The positional-pairing loop of lines 91–98: one record per index up to the
longer of the two lists, with the empty string standing in for a missing title
or paragraph. -/
def combineData (url : Str) (titles paragraphs : List Str) : List ExtractedRecord :=
  (List.range (max titles.length paragraphs.length)).map fun i =>
    ⟨url, titles.getD i [], paragraphs.getD i []⟩

/-- `scrape_data` (lines 76–104) after its `fetch_url` call: `html` is the
fetched body (`none` when the fetch failed), `parse` the outcome of the soup
queries.  `if not html` (line 79) is true both for `None` and for the empty
string; an exception inside the `try` returns `[]` (lines 102–104); two empty
element lists return `[]` with a warning (lines 87–89). -/
def scrape_data (url : Str) (html : Option Str) (parse : ParseOutcome) :
    List ExtractedRecord :=
  match html with
  | none => []
  | some h =>
      if h.isEmpty then []
      else
        match parse with
        | .raised => []
        | .ok ts ps =>
            let titles := ts.map pyStrip
            let paragraphs := ps.map pyStrip
            if titles.isEmpty && paragraphs.isEmpty then []
            else combineData url titles paragraphs

/-! ### Pipeline orchestrator — `main`, lines 106–141 -/

/-- The external world seen by one URL: its probe response, the outcome of
each fetch attempt, and the parse outcome for its fetched body. -/
structure UrlEnv where
  probe : ProbeResponse
  attempts : Nat → AttemptResult
  parse : ParseOutcome

/-- The `valid_urls` list built at lines 109–116: the input URLs that pass
`is_valid_url` and whose probe returns `True`, in input order. -/
def survivors (urls : List Str) (env : Str → UrlEnv) : List Str :=
  urls.filter fun u => is_valid_url u && probeOk (is_url_alive_and_valid (env u).probe)

/-- The URLs on which the prober is invoked: line 113 runs only when the
line-112 syntax check passed. -/
def probedUrls (urls : List Str) : List Str := urls.filter is_valid_url

/-- The record list produced by one `scrape_data(session, url)` task. -/
def urlRecords (env : Str → UrlEnv) (u : Str) : List ExtractedRecord :=
  scrape_data u (fetch_url (env u).attempts).body (env u).parse

/-- Writes `some (f i)` into slot `i` of `acc` for each index in `σ`, in the
order listed by `σ`. -/
def scatter {α : Type _} (f : Nat → α) (σ : List Nat) (acc : List (Option α)) :
    List (Option α) :=
  σ.foldl (fun a i => a.set i (some (f i))) acc

/-- Model of `tqdm_asyncio.gather` (line 125): tasks finish in an arbitrary
completion order `σ`, but each result is placed into the slot of its task's
submission index, so the output is indexed by submission order.  Slots whose
index never completes hold `d`. -/
def gatherModel {α : Type _} (d : α) (tasks : List α) (σ : List Nat) : List α :=
  (scatter (fun i => tasks.getD i d) σ (List.replicate tasks.length none)).map
    fun o => o.getD d

/-- The flatten at line 127: `[item for sublist in all_results if sublist for
item in sublist]` — empty sublists are skipped, the rest concatenated in
order. -/
def flattenResults (all_results : List (List ExtractedRecord)) : List ExtractedRecord :=
  (all_results.filter fun l => !l.isEmpty).flatten

/-- The observable outcome of one `main` run: which URLs were probed and
fetched, the flattened dataset, the CSV artifact (`some` exactly when
`df.to_csv` runs, line 138), and whether an empty-pipeline warning was logged
(line 119 or line 129). -/
structure RunResult where
  probed : List Str
  fetched : List Str
  dataset : List ExtractedRecord
  artifact : Option (List ExtractedRecord)
  emptyWarning : Bool
deriving DecidableEq

/-- `main` (lines 106–141): filter the URLs (lines 109–116), stop with a
warning when none survive (lines 118–120), otherwise run one scrape task per
survivor, gather by submission index (lines 122–125), flatten (line 127),
stop with a warning when no records remain (lines 128–130), otherwise write
the artifact (lines 132–141). -/
def runPipeline (urls : List Str) (env : Str → UrlEnv) (σ : List Nat) : RunResult :=
  let valid_urls := survivors urls env
  if valid_urls.isEmpty then
    ⟨probedUrls urls, [], [], none, true⟩
  else
    let tasks := valid_urls.map (urlRecords env)
    let all_results := gatherModel [] tasks σ
    let flat := flattenResults all_results
    if flat.isEmpty then
      ⟨probedUrls urls, valid_urls, [], none, true⟩
    else
      ⟨probedUrls urls, valid_urls, flat, some flat, false⟩

/-! ### Claim-side validity predicates (refinement definitions for C1) -/

/-- The validity test exactly as the claim states it: the URL consists of
scheme `http` or `https`, then `://`, then one or more non-whitespace
characters. -/
def specValidURL (url : Str) : Bool :=
  (lowerStr (url.take 7) = "http://".toList &&
     (url.drop 7 ≠ [] && (url.drop 7).all fun c => !pyIsSpace c)) ||
  (lowerStr (url.take 8) = "https://".toList &&
     (url.drop 8 ≠ [] && (url.drop 8).all fun c => !pyIsSpace c))

/-- The amended validity test: as `specValidURL`, but only the space character
(U+0020) is excluded after the scheme; tab, newline and other whitespace are
accepted. -/
def specValidURLAmended (url : Str) : Bool :=
  (lowerStr (url.take 7) = "http://".toList &&
     (url.drop 7 ≠ [] && (url.drop 7).all fun c => c != ' ')) ||
  (lowerStr (url.take 8) = "https://".toList &&
     (url.drop 8 ≠ [] && (url.drop 8).all fun c => c != ' '))

/-! ### Concrete environments used to instantiate theorems -/

/-- A two-behaviour world: `http://dead.test` is alive to the probe but every
fetch attempt returns HTTP 500; every other URL probes alive, fetches a small
page on the first attempt, and parses to one paragraph. -/
def wEnvC4 : Str → UrlEnv := fun url =>
  if url = "http://dead.test".toList then
    ⟨.success 200 "ok".toList, fun _ => .httpError 500, .ok [] []⟩
  else
    ⟨.success 200 "ok".toList, fun _ => .ok "<p>q</p>".toList, .ok [] ["q".toList]⟩

/-! ## Helper lemmas -/

/-- The case-insensitive literal matcher succeeds exactly when the input's
first `lit.length` characters agree with `lit` up to case, and then returns
the rest of the input. -/
theorem matchLit_eq : ∀ (lit s : Str),
    matchLit lit s =
      if lowerStr (s.take lit.length) = lowerStr lit then some (s.drop lit.length)
      else none
  | [], s => by simp [matchLit, lowerStr]
  | c :: lit, [] => by simp [matchLit, lowerStr]
  | c :: lit, d :: s => by
      rw [matchLit]
      by_cases h : d.toLower = c.toLower
      · rw [if_pos h, matchLit_eq lit s]
        simp [lowerStr, List.length_cons, List.take_succ_cons, h]
      · rw [if_neg h]
        simp [lowerStr, List.length_cons, List.take_succ_cons, h]

/-- The regex tail `[^ ]+$` (with Python's `$`) accepts exactly the non-empty
strings containing no space character. -/
theorem plusNonSpaceDollar_eq : ∀ r : Str,
    plusNonSpaceDollar r = (decide (r ≠ []) && r.all fun c => c != ' ')
  | [] => by simp [plusNonSpaceDollar]
  | c :: r => by
      rw [plusNonSpaceDollar]
      have hr : (dollarAt r || plusNonSpaceDollar r) = r.all fun c => c != ' ' := by
        match r with
        | [] => simp [dollarAt, plusNonSpaceDollar]
        | x :: xs =>
            rw [plusNonSpaceDollar_eq (x :: xs)]
            by_cases h : (x :: xs) = ['\n']
            · rw [h]; decide
            · have hb : ((x :: xs) == ['\n']) = false := beq_eq_false_iff_ne.mpr h
              simp [dollarAt, hb]
      simp [hr]

/-- The regex of `is_valid_url` accepts exactly the strings of the amended
characterization: a case-insensitive `http://` or `https://` scheme followed
by at least one character, none of which is a space. -/
theorem is_valid_url_eq_amended (url : Str) :
    is_valid_url url = specValidURLAmended url := by
  have h7l : ("http://".toList : Str).length = 7 := by decide
  have h7 : lowerStr "http://".toList = "http://".toList := by decide
  have h8l : ("https://".toList : Str).length = 8 := by decide
  have h8 : lowerStr "https://".toList = "https://".toList := by decide
  rw [is_valid_url, specValidURLAmended, matchLit_eq, matchLit_eq, h7l, h7, h8l, h8]
  by_cases c7 : lowerStr (url.take 7) = ['h', 't', 't', 'p', ':', '/', '/'] <;>
    by_cases c8 : lowerStr (url.take 8) = ['h', 't', 't', 'p', 's', ':', '/', '/'] <;>
      simp [c7, c8, plusNonSpaceDollar_eq]

/-- The probe helper returns `True` exactly on the `Alive` classification. -/
theorem probeOk_eq_true (r : LivenessResult) : probeOk r = true ↔ r = .Alive := by
  cases r <;> simp [probeOk]

/-- With `n + 1` attempts allowed, a success on the very first attempt ends the
loop after exactly one attempt with no backoff. -/
theorem retryLoop_first_ok (results : Nat → AttemptResult) (used : Nat) (b : Str)
    (h : attemptBody (results used) = some b) :
    ∀ n, retryLoop results (n + 1) used = ⟨some b, used + 1, []⟩
  | 0 => by simp [retryLoop, h]
  | n + 1 => by simp [retryLoop, h]

/-- When attempt `used` fails and at least two attempts remain, the loop sleeps
`backoffDelay used` and continues with the next attempt. -/
theorem retryLoop_step_fail (results : Nat → AttemptResult) (used n : Nat)
    (h : attemptBody (results used) = none) :
    retryLoop results (n + 2) used =
      ⟨(retryLoop results (n + 1) (used + 1)).body,
       (retryLoop results (n + 1) (used + 1)).attemptsUsed,
       backoffDelay used :: (retryLoop results (n + 1) (used + 1)).backoffs⟩ := by
  simp [retryLoop, h]

/-- The retry loop makes at most as many attempts as it is allowed. -/
theorem retryLoop_attemptsUsed_le (results : Nat → AttemptResult) :
    ∀ n used, (retryLoop results n used).attemptsUsed ≤ used + n
  | 0, used => by simp [retryLoop]
  | 1, used => by
      rcases h : attemptBody (results used) with _ | b <;> simp [retryLoop, h]
  | n + 2, used => by
      rcases h : attemptBody (results used) with _ | b
      · rw [retryLoop_step_fail results used n h]
        have := retryLoop_attemptsUsed_le results (n + 1) (used + 1)
        simpa [Nat.add_assoc, Nat.add_comm, Nat.add_left_comm] using this
      · rw [retryLoop_first_ok results used b h (n + 1)]
        show used + 1 ≤ used + (n + 2)
        omega

/-- The backoff delays of any run form a contiguous run of the exponential
schedule: `backoffDelay used, backoffDelay (used + 1), …`. -/
theorem retryLoop_backoffs (results : Nat → AttemptResult) :
    ∀ n used, ∃ r, (retryLoop results n used).backoffs =
      (List.range' used r).map backoffDelay
  | 0, used => ⟨0, by simp [retryLoop]⟩
  | 1, used => by
      rcases h : attemptBody (results used) with _ | b <;>
        exact ⟨0, by simp [retryLoop, h]⟩
  | n + 2, used => by
      rcases h : attemptBody (results used) with _ | b
      · obtain ⟨r, hr⟩ := retryLoop_backoffs results (n + 1) (used + 1)
        refine ⟨r + 1, ?_⟩
        rw [retryLoop_step_fail results used n h, hr, List.range'_succ]
        rfl
      · exact ⟨0, by rw [retryLoop_first_ok results used b h (n + 1)]; rfl⟩

/-- When every allowed attempt fails, the loop uses all its attempts, yields no
body, and sleeps the full exponential schedule between them. -/
theorem retryLoop_all_fail (results : Nat → AttemptResult) :
    ∀ n used, (∀ k, k < n → attemptBody (results (used + k)) = none) →
      retryLoop results n used =
        ⟨none, used + n, (List.range' used (n - 1)).map backoffDelay⟩
  | 0, used, _ => by simp [retryLoop]
  | 1, used, h => by
      have h0 := h 0 (by omega)
      rw [Nat.add_zero] at h0
      simp [retryLoop, h0]
  | n + 2, used, h => by
      have h0 := h 0 (by omega)
      rw [Nat.add_zero] at h0
      have ih := retryLoop_all_fail results (n + 1) (used + 1) (fun k hk => by
        have hx := h (k + 1) (by omega)
        rwa [show used + (k + 1) = used + 1 + k by omega] at hx)
      rw [retryLoop_step_fail results used n h0, ih]
      simp only [show n + 2 - 1 = n + 1 from by omega, show n + 1 - 1 = n from by omega,
        List.range'_succ, List.map_cons, FetchOutcome.mk.injEq]
      exact ⟨trivial, by omega, trivial⟩

/-- `scatter` peels its completion list one index at a time. -/
theorem scatter_cons {α : Type _} (f : Nat → α) (i : Nat) (σ : List Nat)
    (acc : List (Option α)) :
    scatter f (i :: σ) acc = scatter f σ (acc.set i (some (f i))) := rfl

/-- Scattering never changes the number of slots. -/
theorem scatter_length {α : Type _} (f : Nat → α) :
    ∀ (σ : List Nat) (acc : List (Option α)), (scatter f σ acc).length = acc.length
  | [], acc => rfl
  | i :: σ, acc => by
      rw [scatter_cons, scatter_length f σ _, List.length_set]

/-- A slot whose index never completes keeps its initial value. -/
theorem getElem?_scatter_not_mem {α : Type _} (f : Nat → α) :
    ∀ (σ : List Nat) (acc : List (Option α)) (j : Nat), j ∉ σ →
      (scatter f σ acc)[j]? = acc[j]?
  | [], acc, j, _ => rfl
  | i :: σ, acc, j, h => by
      have h' : j ≠ i ∧ j ∉ σ := by
        constructor
        · intro he; exact h (he ▸ List.mem_cons_self i σ)
        · intro hm; exact h (List.mem_cons_of_mem i hm)
      rw [scatter_cons, getElem?_scatter_not_mem f σ _ j h'.2,
        List.getElem?_set_ne (fun he => h'.1 he.symm)]

/-- A slot whose index completes holds that index's task value. -/
theorem getElem?_scatter_mem {α : Type _} (f : Nat → α) :
    ∀ (σ : List Nat) (acc : List (Option α)) (j : Nat), j ∈ σ → j < acc.length →
      (scatter f σ acc)[j]? = some (some (f j))
  | i :: σ, acc, j, hm, hl => by
      rw [scatter_cons]
      by_cases hj : j ∈ σ
      · exact getElem?_scatter_mem f σ _ j hj (by rwa [List.length_set])
      · have hij : j = i := by
          rcases List.mem_cons.mp hm with h | h
          · exact h
          · exact absurd h hj
        subst hij
        rw [getElem?_scatter_not_mem f σ _ j hj, List.getElem?_set_self hl]

/-- The gathered result list has one slot per task. -/
theorem gatherModel_length {α : Type _} (d : α) (tasks : List α) (σ : List Nat) :
    (gatherModel d tasks σ).length = tasks.length := by
  rw [gatherModel, List.length_map, scatter_length, List.length_replicate]

/-- A completed slot of the gathered list holds its task's value. -/
theorem getElem?_gatherModel_mem {α : Type _} (d : α) (tasks : List α) (σ : List Nat)
    (j : Nat) (hm : j ∈ σ) (hl : j < tasks.length) :
    (gatherModel d tasks σ)[j]? = some (tasks.getD j d) := by
  rw [gatherModel, List.getElem?_map,
    getElem?_scatter_mem _ σ _ j hm (by rwa [List.length_replicate])]
  rfl

/-- A never-completed slot of the gathered list holds the default. -/
theorem getElem?_gatherModel_not_mem {α : Type _} (d : α) (tasks : List α)
    (σ : List Nat) (j : Nat) (hm : j ∉ σ) (hl : j < tasks.length) :
    (gatherModel d tasks σ)[j]? = some d := by
  rw [gatherModel, List.getElem?_map, getElem?_scatter_not_mem _ σ _ j hm,
    List.getElem?_replicate]
  simp [hl]

/-- When the completion order is a permutation of the task indices, gathering
restores exactly the submission-ordered task results: the output is
independent of the completion order. -/
theorem gatherModel_perm {α : Type _} (d : α) (tasks : List α) (σ : List Nat)
    (hσ : σ.Perm (List.range tasks.length)) : gatherModel d tasks σ = tasks := by
  apply List.ext_getElem?
  intro j
  by_cases hj : j < tasks.length
  · have hm : j ∈ σ := hσ.mem_iff.mpr (List.mem_range.mpr hj)
    rw [getElem?_gatherModel_mem d tasks σ j hm hj, List.getD_eq_getElem _ _ hj,
      List.getElem?_eq_getElem hj]
  · rw [List.getElem?_eq_none (by omega : tasks.length ≤ j),
      List.getElem?_eq_none (by rw [gatherModel_length]; omega)]

/-- Every element of a gathered list is the default or one of the tasks'
results, whatever the completion order. -/
theorem mem_gatherModel {α : Type _} (d : α) (tasks : List α) (σ : List Nat)
    (x : α) (hx : x ∈ gatherModel d tasks σ) : x = d ∨ x ∈ tasks := by
  obtain ⟨j, hget⟩ := List.mem_iff_getElem?.mp hx
  have hj : j < tasks.length := by
    have hlt := List.getElem?_eq_some_iff.mp hget
    obtain ⟨hlt, -⟩ := hlt
    rwa [gatherModel_length] at hlt
  by_cases hm : j ∈ σ
  · right
    rw [getElem?_gatherModel_mem d tasks σ j hm hj] at hget
    obtain rfl : tasks.getD j d = x := Option.some_inj.mp hget
    rw [List.getD_eq_getElem _ _ hj]
    exact List.getElem_mem hj
  · left
    rw [getElem?_gatherModel_not_mem d tasks σ j hm hj] at hget
    exact (Option.some_inj.mp hget).symm

/-- Skipping empty sublists before concatenating changes nothing. -/
theorem flattenResults_eq : ∀ L : List (List ExtractedRecord),
    flattenResults L = L.flatten
  | [] => rfl
  | l :: L => by
      rw [flattenResults, List.filter_cons]
      by_cases h : l.isEmpty
      · rw [if_neg (by simp [h]), List.flatten_cons, List.isEmpty_iff.mp h,
          List.nil_append]
        exact flattenResults_eq L
      · rw [if_pos (by simp [h]), List.flatten_cons, List.flatten_cons]
        show l ++ flattenResults L = l ++ L.flatten
        rw [flattenResults_eq L]

/-- Every record built by the pairing loop carries the source URL. -/
theorem mem_combineData {rec : ExtractedRecord} {url : Str} {T P : List Str}
    (h : rec ∈ combineData url T P) : rec.url = url := by
  rw [combineData] at h
  obtain ⟨i, -, rfl⟩ := List.mem_map.mp h
  rfl

/-- A record extracted for a URL carries that URL, and only a successful fetch
(a non-`none` body) can produce records. -/
theorem mem_scrape_data {rec : ExtractedRecord} {url : Str} {html : Option Str}
    {parse : ParseOutcome} (h : rec ∈ scrape_data url html parse) :
    rec.url = url ∧ html ≠ none := by
  match html with
  | none => simp [scrape_data] at h
  | some hb =>
      refine ⟨?_, by simp⟩
      simp only [scrape_data] at h
      split at h
      · simp at h
      · split at h
        · simp at h
        · split at h
          · simp at h
          · exact mem_combineData h

/-- Membership in the `valid_urls` list of lines 109–116. -/
theorem mem_survivors {u : Str} {urls : List Str} {env : Str → UrlEnv} :
    u ∈ survivors urls env ↔
      u ∈ urls ∧ is_valid_url u = true ∧
        probeOk (is_url_alive_and_valid (env u).probe) = true := by
  simp [survivors, List.mem_filter]

/-- The prober is invoked exactly on the syntax-valid URLs, in every run. -/
theorem runPipeline_probed (urls : List Str) (env : Str → UrlEnv) (σ : List Nat) :
    (runPipeline urls env σ).probed = probedUrls urls := by
  simp only [runPipeline]
  split
  · rfl
  · split <;> rfl

/-- Every URL handed to the fetch stage survived validation and probing. -/
theorem runPipeline_fetched_sub {urls : List Str} {env : Str → UrlEnv}
    {σ : List Nat} {u : Str} (h : u ∈ (runPipeline urls env σ).fetched) :
    u ∈ survivors urls env := by
  revert h
  simp only [runPipeline]
  split
  · intro h; simp at h
  · split <;> exact fun h => h

/-- Every record of the dataset comes from the task of some surviving URL. -/
theorem runPipeline_dataset_sub {urls : List Str} {env : Str → UrlEnv}
    {σ : List Nat} {rec : ExtractedRecord}
    (h : rec ∈ (runPipeline urls env σ).dataset) :
    ∃ u ∈ survivors urls env, rec ∈ urlRecords env u := by
  revert h
  simp only [runPipeline]
  split
  · intro h; simp at h
  · split
    · intro h; simp at h
    · intro h
      rw [flattenResults_eq] at h
      obtain ⟨l, hl, hrec⟩ := List.mem_flatten.mp h
      rcases mem_gatherModel _ _ _ l hl with rfl | hl'
      · simp at hrec
      · obtain ⟨u, hu, rfl⟩ := List.mem_map.mp hl'
        exact ⟨u, hu, hrec⟩

/-- Under any permutation completion order, the dataset is the concatenation
of the per-URL record lists in URL submission order. -/
theorem runPipeline_dataset_eq (urls : List Str) (env : Str → UrlEnv) (σ : List Nat)
    (hσ : σ.Perm (List.range (survivors urls env).length)) :
    (runPipeline urls env σ).dataset = (survivors urls env).flatMap (urlRecords env) := by
  have hg : gatherModel [] ((survivors urls env).map (urlRecords env)) σ
      = (survivors urls env).map (urlRecords env) :=
    gatherModel_perm _ _ _ (by rwa [List.length_map])
  have hf : flattenResults (gatherModel [] ((survivors urls env).map (urlRecords env)) σ)
      = (survivors urls env).flatMap (urlRecords env) := by
    rw [hg, flattenResults_eq, List.flatMap_def]
  simp only [runPipeline]
  split
  · next hc => rw [List.isEmpty_iff.mp hc]; rfl
  · split
    · next hc => rw [← hf, List.isEmpty_iff.mp hc]
    · exact hf

/-- The pairing loop produces one record per index up to the longer list. -/
theorem combineData_length (url : Str) (T P : List Str) :
    (combineData url T P).length = max T.length P.length := by
  rw [combineData, List.length_map, List.length_range]

/-- Record `i` of the pairing loop holds the `i`-th title and the `i`-th
paragraph, an empty string standing in for a missing one. -/
theorem combineData_getD (url : Str) (T P : List Str) (i : Nat)
    (hi : i < max T.length P.length) :
    (combineData url T P).getD i ⟨[], [], []⟩ = ⟨url, T.getD i [], P.getD i []⟩ := by
  rw [combineData, List.getD_eq_getElem?_getD, List.getElem?_map,
    List.getElem?_range hi]
  rfl

/-- On a successful parse of a non-empty body, `scrape_data` is exactly the
pairing loop applied to the stripped title and paragraph texts (when both
lists are empty the early return and the empty loop agree). -/
theorem scrape_data_ok_eq (url h : Str) (ts ps : List Str) (hh : h ≠ []) :
    scrape_data url (some h) (.ok ts ps) =
      combineData url (ts.map pyStrip) (ps.map pyStrip) := by
  simp only [scrape_data]
  rw [if_neg (by simp [hh])]
  split
  · next hb =>
      rw [Bool.and_eq_true] at hb
      rw [combineData, List.isEmpty_iff.mp hb.1, List.isEmpty_iff.mp hb.2]
      rfl
  · rfl

/-! ## Claims -/

/-- C1 counterexample: the claim requires every URL with embedded whitespace
after the scheme to be rejected, but the code accepts `"http://a\tb"` — the
regex `[^ ]+` excludes only the space character, not the tab. -/
theorem claim_C1_counterexample :
    is_valid_url "http://a\tb".toList = true ∧
    specValidURL "http://a\tb".toList = false := by
  decide

/-- C1 (amended): `validate` returns SyntaxValid exactly for strings matching
scheme `http` or `https` (case-insensitively, followed by `://`) and then one
or more characters none of which is a space (U+0020) — other whitespace such
as tab or newline is accepted — and every URL it rejects reaches neither the
prober nor the fetcher. -/
theorem claim_C1 (url : Str) :
    is_valid_url url = specValidURLAmended url ∧
    (specValidURLAmended url = false →
      ∀ (urls : List Str) (env : Str → UrlEnv) (σ : List Nat),
        url ∉ (runPipeline urls env σ).probed ∧
        url ∉ (runPipeline urls env σ).fetched) := by
  refine ⟨is_valid_url_eq_amended url, ?_⟩
  intro hinv urls env σ
  have hv : is_valid_url url = false := by rw [is_valid_url_eq_amended url, hinv]
  constructor
  · rw [runPipeline_probed, probedUrls]
    intro hmem
    have hmm := (List.mem_filter.mp hmem).2
    rw [hv] at hmm
    exact Bool.false_ne_true hmm
  · intro hmem
    have hs := runPipeline_fetched_sub hmem
    have hmm := (mem_survivors.mp hs).2.1
    rw [hv] at hmm
    exact Bool.false_ne_true hmm

/-- C1 witness: the scheme-less URL of scenario B is rejected and in a
concrete run is never probed. -/
theorem claim_C1_witness :
    specValidURLAmended "not-a-url".toList = false ∧
    "not-a-url".toList ∉
      (runPipeline ["not-a-url".toList]
        (fun _ => ⟨.failure, fun _ => .timeout, .raised⟩) []).probed :=
  ⟨by decide, ((claim_C1 "not-a-url".toList).2 (by decide) _ _ _).1⟩

/-- C2: a 200 response whose body contains "page not found" in any letter case
is classified SoftNotFound and never Alive; the classification is Alive
exactly when the status is 200 and the phrase is absent; a SoftNotFound URL is
excluded from the fetch stage. -/
theorem claim_C2 (status : Nat) (body : Str) :
    (status = 200 → containsSub softNotFoundPhrase (lowerStr body) = true →
      is_url_alive_and_valid (.success status body) = .SoftNotFound ∧
      is_url_alive_and_valid (.success status body) ≠ .Alive) ∧
    (is_url_alive_and_valid (.success status body) = .Alive ↔
      status = 200 ∧ containsSub softNotFoundPhrase (lowerStr body) = false) ∧
    (∀ (urls : List Str) (env : Str → UrlEnv) (σ : List Nat) (u : Str),
      is_url_alive_and_valid (env u).probe = .SoftNotFound →
      u ∉ (runPipeline urls env σ).fetched) := by
  refine ⟨?_, ?_, ?_⟩
  · intro hs hc
    subst hs
    simp [is_url_alive_and_valid, hc]
  · simp only [is_url_alive_and_valid]
    split
    · next hs =>
        split
        · next hc => simp [hs, hc]
        · next hc => simp [hs, Bool.of_not_eq_true hc]
    · next hs => simp [hs]
  · intro urls env σ u hsoft hmem
    have hs := runPipeline_fetched_sub hmem
    have hOk := (mem_survivors.mp hs).2.2
    rw [probeOk_eq_true, hsoft] at hOk
    exact LivenessResult.noConfusion hOk

/-- C2 witness: a concrete 200 soft-404 response in mixed case is classified
SoftNotFound, and its URL is not fetched in a concrete run. -/
theorem claim_C2_witness :
    is_url_alive_and_valid (.success 200 "Sorry, PAGE NOT Found".toList) =
      .SoftNotFound ∧
    "http://soft.test".toList ∉
      (runPipeline ["http://soft.test".toList]
        (fun _ => ⟨.success 200 "Sorry, PAGE NOT Found".toList,
                   fun _ => .timeout, .raised⟩) []).fetched :=
  ⟨((claim_C2 200 "Sorry, PAGE NOT Found".toList).1 rfl (by decide)).1,
   (claim_C2 200 "Sorry, PAGE NOT Found".toList).2.2 _ _ _ _ (by decide)⟩

/-- C3: the fetcher makes at most 3 attempts, exactly 1 when the first attempt
succeeds (with no backoff slept), and its backoff delays double from each
retry to the next. -/
theorem claim_C3 (results : Nat → AttemptResult) :
    (fetch_url results).attemptsUsed ≤ 3 ∧
    (∀ b, attemptBody (results 0) = some b →
      fetch_url results = ⟨some b, 1, []⟩) ∧
    (∀ i, i + 1 < (fetch_url results).backoffs.length →
      (fetch_url results).backoffs.getD (i + 1) 0 =
        2 * (fetch_url results).backoffs.getD i 0) := by
  refine ⟨?_, ?_, ?_⟩
  · have hle := retryLoop_attemptsUsed_le results maxAttempts 0
    simpa [maxAttempts] using hle
  · intro b hb
    exact retryLoop_first_ok results 0 b hb 2
  · intro i hi
    obtain ⟨r, hr⟩ := retryLoop_backoffs results maxAttempts 0
    have hr' : (fetch_url results).backoffs = (List.range' 0 r).map backoffDelay := hr
    rw [hr'] at hi ⊢
    rw [List.length_map, List.length_range'] at hi
    rw [List.getD_eq_getElem?_getD, List.getD_eq_getElem?_getD,
      List.getElem?_map, List.getElem?_map,
      List.getElem?_range' 0 1 hi,
      List.getElem?_range' 0 1 (show i < r by omega)]
    simp [backoffDelay, pow_succ, Nat.mul_comm]

/-- C3 witness: a first-attempt success fetch uses one attempt and no backoff;
an always-failing fetch's second delay is double its first. -/
theorem claim_C3_witness :
    fetch_url (fun _ => .ok "x".toList) = ⟨some "x".toList, 1, []⟩ ∧
    (fetch_url (fun _ => .timeout)).backoffs.getD 1 0 =
      2 * (fetch_url (fun _ => .timeout)).backoffs.getD 0 0 :=
  ⟨(claim_C3 (fun _ => .ok "x".toList)).2.1 "x".toList rfl,
   (claim_C3 (fun _ => .timeout)).2.2 0 (by decide)⟩

/-- C4: a non-2xx/3xx attempt yields no body and is retried like any failed
attempt; when every attempt fails the outcome is Failed (no body) after 3
attempts and the full backoff schedule; such a URL contributes no records,
and the rest of the batch produces the same dataset as if the URL's task had
not existed. -/
theorem claim_C4 :
    (∀ (results : Nat → AttemptResult) (s : Nat) (b : Str),
      results 0 = .httpError s → attemptBody (results 1) = some b →
      fetch_url results = ⟨some b, 2, [1]⟩) ∧
    (∀ results : Nat → AttemptResult,
      (∀ k, k < maxAttempts → attemptBody (results k) = none) →
      fetch_url results = ⟨none, 3, [1, 2]⟩) ∧
    (∀ (env : Str → UrlEnv) (u : Str),
      (∀ k, k < maxAttempts → attemptBody ((env u).attempts k) = none) →
      urlRecords env u = []) ∧
    (∀ (env : Str → UrlEnv) (u : Str) (rest : List Str) (σ σ' : List Nat),
      (∀ k, k < maxAttempts → attemptBody ((env u).attempts k) = none) →
      σ.Perm (List.range (survivors (u :: rest) env).length) →
      σ'.Perm (List.range (survivors rest env).length) →
      (runPipeline (u :: rest) env σ).dataset =
        (runPipeline rest env σ').dataset) := by
  have part1 : ∀ (results : Nat → AttemptResult) (s : Nat) (b : Str),
      results 0 = .httpError s → attemptBody (results 1) = some b →
      fetch_url results = ⟨some b, 2, [1]⟩ := by
    intro results s b h0 h1
    have h0' : attemptBody (results 0) = none := by rw [h0]; rfl
    have e1 := retryLoop_step_fail results 0 1 h0'
    simp only [Nat.zero_add] at e1
    have e2 := retryLoop_first_ok results 1 b h1 1
    show retryLoop results (1 + 2) 0 = ⟨some b, 2, [1]⟩
    rw [e1, e2]
    rfl
  have part2 : ∀ results : Nat → AttemptResult,
      (∀ k, k < maxAttempts → attemptBody (results k) = none) →
      fetch_url results = ⟨none, 3, [1, 2]⟩ := by
    intro results hfail
    have hall := retryLoop_all_fail results maxAttempts 0 (fun k hk => by
      rw [Nat.zero_add]; exact hfail k hk)
    exact hall.trans (by decide)
  have part3 : ∀ (env : Str → UrlEnv) (u : Str),
      (∀ k, k < maxAttempts → attemptBody ((env u).attempts k) = none) →
      urlRecords env u = [] := by
    intro env u hfail
    have hb := part2 (env u).attempts hfail
    simp [urlRecords, hb, scrape_data]
  refine ⟨part1, part2, part3, ?_⟩
  intro env u rest σ σ' hfail hσ hσ'
  rw [runPipeline_dataset_eq _ _ _ hσ, runPipeline_dataset_eq _ _ _ hσ',
    survivors, List.filter_cons]
  split
  · rw [List.flatMap_cons, part3 env u hfail, List.nil_append]
    rfl
  · rfl

/-- C4 witness: a 404 first attempt is retried and the second attempt's body
returned; an all-5xx fetch fails after 3 attempts; in a concrete two-URL run
the failing URL's presence does not change the dataset. -/
theorem claim_C4_witness :
    fetch_url (fun k => if k = 0 then .httpError 404 else .ok "b".toList) =
      ⟨some "b".toList, 2, [1]⟩ ∧
    fetch_url (fun _ => .httpError 500) = ⟨none, 3, [1, 2]⟩ ∧
    (runPipeline ["http://dead.test".toList, "http://good.test".toList]
        wEnvC4 [0, 1]).dataset =
      (runPipeline ["http://good.test".toList] wEnvC4 [0]).dataset :=
  ⟨claim_C4.1 (fun k => if k = 0 then .httpError 404 else .ok "b".toList)
      404 "b".toList rfl rfl,
   claim_C4.2.1 (fun _ => .httpError 500) (by decide),
   claim_C4.2.2.2 wEnvC4 "http://dead.test".toList ["http://good.test".toList]
      [0, 1] [0] (by decide) (by decide) (by decide)⟩

/-- C5: for a successfully parsed non-empty body with stripped title list `T`
and paragraph list `P`, extraction yields exactly `max |T| |P|` records, the
`i`-th carrying `T i` (or the empty string past the end of `T`) and `P i` (or
the empty string past the end of `P`). -/
theorem claim_C5 (url h : Str) (ts ps : List Str) (hh : h ≠ []) :
    (scrape_data url (some h) (.ok ts ps)).length =
      max (ts.map pyStrip).length (ps.map pyStrip).length ∧
    ∀ i, i < max (ts.map pyStrip).length (ps.map pyStrip).length →
      (scrape_data url (some h) (.ok ts ps)).getD i ⟨[], [], []⟩ =
        ⟨url, (ts.map pyStrip).getD i [], (ps.map pyStrip).getD i []⟩ := by
  rw [scrape_data_ok_eq url h ts ps hh]
  exact ⟨combineData_length url _ _, fun i hi => combineData_getD url _ _ i hi⟩

/-- C5 witness: a page with 2 headings and 5 paragraphs yields exactly 5
records; record 0 pairs the first heading with the first paragraph, record 2
has an empty-string title and the third paragraph. -/
theorem claim_C5_witness :
    (scrape_data "http://u.test".toList (some "<html>".toList)
      (.ok ["T1".toList, "T2".toList]
        ["p1".toList, "p2".toList, "p3".toList, "p4".toList, "p5".toList])).length
      = 5 ∧
    (scrape_data "http://u.test".toList (some "<html>".toList)
      (.ok ["T1".toList, "T2".toList]
        ["p1".toList, "p2".toList, "p3".toList, "p4".toList, "p5".toList])).getD 0
        ⟨[], [], []⟩ = ⟨"http://u.test".toList, "T1".toList, "p1".toList⟩ ∧
    (scrape_data "http://u.test".toList (some "<html>".toList)
      (.ok ["T1".toList, "T2".toList]
        ["p1".toList, "p2".toList, "p3".toList, "p4".toList, "p5".toList])).getD 2
        ⟨[], [], []⟩ = ⟨"http://u.test".toList, [], "p3".toList⟩ :=
  ⟨(claim_C5 "http://u.test".toList "<html>".toList
      ["T1".toList, "T2".toList]
      ["p1".toList, "p2".toList, "p3".toList, "p4".toList, "p5".toList]
      (by decide)).1,
   (claim_C5 "http://u.test".toList "<html>".toList
      ["T1".toList, "T2".toList]
      ["p1".toList, "p2".toList, "p3".toList, "p4".toList, "p5".toList]
      (by decide)).2 0 (by decide),
   (claim_C5 "http://u.test".toList "<html>".toList
      ["T1".toList, "T2".toList]
      ["p1".toList, "p2".toList, "p3".toList, "p4".toList, "p5".toList]
      (by decide)).2 2 (by decide)⟩

/-- C6: extraction never propagates an exception — a parse failure degrades to
the empty record list — and a page with no headings and no paragraphs also
yields the empty record list. -/
theorem claim_C6 (url : Str) (html : Option Str) :
    scrape_data url html .raised = [] ∧
    scrape_data url html (.ok [] []) = [] := by
  match html with
  | none => exact ⟨rfl, rfl⟩
  | some h =>
      constructor <;> (simp only [scrape_data]; split <;> rfl)

/-- C7: every record of the final dataset stems from an input URL that passed
syntax validation, whose probe classified it Alive, and whose fetch produced a
body — no record comes from a failed fetch. -/
theorem claim_C7 (urls : List Str) (env : Str → UrlEnv) (σ : List Nat)
    (rec : ExtractedRecord) (hrec : rec ∈ (runPipeline urls env σ).dataset) :
    rec.url ∈ urls ∧ is_valid_url rec.url = true ∧
    is_url_alive_and_valid (env rec.url).probe = .Alive ∧
    (fetch_url (env rec.url).attempts).body ≠ none := by
  obtain ⟨u, hu, hmem⟩ := runPipeline_dataset_sub hrec
  obtain ⟨hurl, hbody⟩ := mem_scrape_data hmem
  obtain ⟨hin, hv, hp⟩ := mem_survivors.mp hu
  subst hurl
  exact ⟨hin, hv, (probeOk_eq_true _).mp hp, hbody⟩

/-- C7 witness: in a concrete one-URL run a dataset record exists, and the
theorem yields its URL's validity and the success of its fetch. -/
theorem claim_C7_witness :
    is_valid_url "http://good.test/page".toList = true ∧
    (fetch_url (fun _ => AttemptResult.ok "<h1>Intro</h1>".toList)).body ≠ none :=
  have happ := claim_C7 ["http://good.test/page".toList]
    (fun _ => ⟨.success 200 "ok".toList, fun _ => .ok "<h1>Intro</h1>".toList,
               .ok [" Intro ".toList] ["A".toList, "B".toList]⟩)
    [0] ⟨"http://good.test/page".toList, "Intro".toList, "A".toList⟩ (by decide)
  ⟨happ.2.1, happ.2.2.2⟩

/-- C8: with the same URL list and the same responses, any two completion
orders produce identical run results, and the dataset is the concatenation of
the per-URL record lists in URL submission order (document order inside each
URL). -/
theorem claim_C8 (urls : List Str) (env : Str → UrlEnv) (σ σ' : List Nat)
    (hσ : σ.Perm (List.range (survivors urls env).length))
    (hσ' : σ'.Perm (List.range (survivors urls env).length)) :
    runPipeline urls env σ = runPipeline urls env σ' ∧
    (runPipeline urls env σ).dataset =
      (survivors urls env).flatMap (urlRecords env) := by
  refine ⟨?_, runPipeline_dataset_eq urls env σ hσ⟩
  have hg : gatherModel [] ((survivors urls env).map (urlRecords env)) σ =
      gatherModel [] ((survivors urls env).map (urlRecords env)) σ' := by
    rw [gatherModel_perm _ _ _ (by rwa [List.length_map]),
      gatherModel_perm _ _ _ (by rwa [List.length_map])]
  simp only [runPipeline]
  rw [hg]

/-- C8 witness: a concrete two-URL run under the reversed completion order
equals the run under the submission order, and its dataset is the in-order
concatenation. -/
theorem claim_C8_witness :
    runPipeline ["http://a.test".toList, "http://b.test".toList] wEnvC4 [1, 0] =
      runPipeline ["http://a.test".toList, "http://b.test".toList] wEnvC4 [0, 1] ∧
    (runPipeline ["http://a.test".toList, "http://b.test".toList] wEnvC4
        [1, 0]).dataset =
      (survivors ["http://a.test".toList, "http://b.test".toList] wEnvC4).flatMap
        (urlRecords wEnvC4) :=
  claim_C8 ["http://a.test".toList, "http://b.test".toList] wEnvC4
    [1, 0] [0, 1] (by decide) (by decide)

/-- C9: when no URL survives validation and probing the run ends cleanly with
an empty dataset, no artifact, and a warning; likewise whenever the flattened
dataset is empty, no artifact is produced and a warning is emitted. -/
theorem claim_C9 (urls : List Str) (env : Str → UrlEnv) (σ : List Nat) :
    (survivors urls env = [] →
      runPipeline urls env σ = ⟨probedUrls urls, [], [], none, true⟩) ∧
    ((runPipeline urls env σ).dataset = [] →
      (runPipeline urls env σ).artifact = none ∧
      (runPipeline urls env σ).emptyWarning = true) := by
  constructor
  · intro hs
    simp only [runPipeline]
    rw [if_pos (List.isEmpty_iff.mpr hs)]
  · simp only [runPipeline]
    split
    · intro _; exact ⟨rfl, rfl⟩
    · split
      · intro _; exact ⟨rfl, rfl⟩
      · next hf =>
          intro hd
          exact absurd (List.isEmpty_iff.mpr hd) hf

/-- C9 witness: a run whose only URL fails validation terminates with the
empty dataset, no artifact, and the warning flag set. -/
theorem claim_C9_witness :
    runPipeline ["nope".toList] (fun _ => ⟨.failure, fun _ => .timeout, .raised⟩)
        [] = ⟨probedUrls ["nope".toList], [], [], none, true⟩ ∧
    ((runPipeline ["nope".toList]
        (fun _ => ⟨.failure, fun _ => .timeout, .raised⟩) []).artifact = none ∧
      (runPipeline ["nope".toList]
        (fun _ => ⟨.failure, fun _ => .timeout, .raised⟩) []).emptyWarning = true) :=
  ⟨(claim_C9 ["nope".toList] (fun _ => ⟨.failure, fun _ => .timeout, .raised⟩)
      []).1 (by decide),
   (claim_C9 ["nope".toList] (fun _ => ⟨.failure, fun _ => .timeout, .raised⟩)
      []).2 (by decide)⟩

/-- C10: an empty-string body is handled exactly like a failed fetch (`None`):
both make `scrape_data` return the empty record list before any extraction,
whatever the parse oracle would say. -/
theorem claim_C10 (url : Str) (parse : ParseOutcome) :
    scrape_data url (some []) parse = scrape_data url none parse ∧
    scrape_data url none parse = [] ∧
    (∀ results : Nat → AttemptResult, (fetch_url results).body = none →
      scrape_data url (fetch_url results).body parse = []) := by
  refine ⟨?_, rfl, ?_⟩
  · simp [scrape_data]
  · intro results hb
    rw [hb]
    rfl

/-- C10 witness: a fetch that exhausts its attempts contributes no records. -/
theorem claim_C10_witness :
    scrape_data "http://w.test".toList
      (fetch_url (fun _ => AttemptResult.transportError)).body .raised = [] :=
  (claim_C10 "http://w.test".toList .raised).2.2
    (fun _ => AttemptResult.transportError) (by decide)

end Collector
